import Mathlib

/-!
Verification of the NeoPool telemetry mapping and entity-state
synchronization engine.

The development shallowly embeds the engine described in the repository's
specification: the dotted-path resolver over nested JSON telemetry, the
value-coercion helpers, the per-entity runtime state with its availability
and telemetry message handlers, the outbound command formatter, and the
YAML entity-registry migration pass of the integration's setup module.

JSON documents are modelled as a tagged tree of mappings, sequences and
scalars; numbers are rationals (telemetry numerics are decimal). A Python
None is the same observable value as JSON null, so the resolver's absent
marker is `Json.null`, exactly as in the source where both read back as
None.
-/

/-- A parsed telemetry document: nested mappings, sequences and scalars. -/
inductive Json where
  | null : Json
  | bool (b : Bool) : Json
  | num (q : ℚ) : Json
  | str (s : String) : Json
  | arr (elements : List Json) : Json
  | obj (fields : List (String × Json)) : Json

/-- First-match association lookup, the embedding of a mapping's key get. -/
def lookupKey : List (String × Json) → String → Option Json
  | [], _ => none
  | (k, v) :: rest, key => if k = key then some v else lookupKey rest key

/-- Split a character list at every occurrence of the separator, the
embedding of a Python single-character split (an empty input yields one
empty piece, as Python split does). -/
def splitCharList (sep : Char) : List Char → List (List Char)
  | [] => [[]]
  | c :: cs =>
    let rest := splitCharList sep cs
    if c = sep then [] :: rest
    else
      match rest with
      | t :: ts => (c :: t) :: ts
      | [] => [[c]]

/-- Split a string at a separator character. -/
def splitChar (sep : Char) (s : String) : List String :=
  (splitCharList sep s.data).map (fun l => ⟨l⟩)

/-- Whether a character list is nonempty and all decimal digits. -/
def allDigits (l : List Char) : Bool :=
  !l.isEmpty && l.all (fun c => c.isDigit)

/-- Whether a path segment consists only of decimal digits, making it a
sequence index rather than a mapping key. -/
def isDigitSegment (s : String) : Bool :=
  allDigits s.data

/-- Numeric value of a digit list. -/
def digitsVal (l : List Char) : ℕ :=
  l.foldl (fun n c => 10 * n + (c.toNat - 48)) 0

/-- Numeric value of an all-digit path segment. -/
def segIndex (s : String) : ℕ :=
  digitsVal s.data

/-- Modelled from the spec: the path resolver's segment loop
(helpers.get_nested_value is not among the repository's staged files; only
its tests are). Iterates segments left to right over a current node: an
all-digit segment requires the current node to be a sequence with that
index in bounds, any other segment requires a mapping containing that key;
the moment a segment cannot be applied (wrong node kind, missing key,
out-of-range index, or current node is null) the result is the absent
marker, `Json.null`. -/
def resolveSegs : List String → Json → Json
  | [], j => j
  | seg :: rest, j =>
    match j with
    | Json.obj kvs =>
      if isDigitSegment seg then Json.null
      else
        match lookupKey kvs seg with
        | some v => resolveSegs rest v
        | none => Json.null
    | Json.arr xs =>
      if isDigitSegment seg then
        match xs[segIndex seg]? with
        | some v => resolveSegs rest v
        | none => Json.null
      else Json.null
    | _ => Json.null

/-- Modelled from the spec: resolve a dotted path string against a
document by splitting on dots and walking the segments. -/
def get_nested_value (doc : Json) (path : String) : Json :=
  resolveSegs (splitChar '.' path) doc

/-- The document contains every segment of the path: string segments as
mapping keys, all-digit segments as in-bounds sequence indices, ending at
the terminal value. -/
inductive Leads : Json → List String → Json → Prop where
  | done (j : Json) : Leads j [] j
  | key (kvs : List (String × Json)) (seg : String) (rest : List String)
      (v tv : Json) : isDigitSegment seg = false → lookupKey kvs seg = some v →
      Leads v rest tv → Leads (Json.obj kvs) (seg :: rest) tv
  | index (xs : List Json) (seg : String) (rest : List String)
      (v tv : Json) : isDigitSegment seg = true → xs[segIndex seg]? = some v →
      Leads v rest tv → Leads (Json.arr xs) (seg :: rest) tv

/-- A contained path resolves to its terminal value. -/
theorem leads_resolve {doc : Json} {segs : List String} {v : Json}
    (h : Leads doc segs v) : resolveSegs segs doc = v := by
  induction h with
  | done j => rfl
  | key kvs seg rest v tv hd hk _ ih =>
    simp only [resolveSegs, hd, hk, Bool.false_eq_true, ite_false]
    exact ih
  | index xs seg rest v tv hd hk _ ih =>
    simp only [resolveSegs, hd, hk, ite_true]
    exact ih

/-- A resolution that does not end absent follows a contained path. -/
theorem resolve_leads (segs : List String) :
    ∀ doc : Json, resolveSegs segs doc ≠ Json.null →
      Leads doc segs (resolveSegs segs doc) := by
  induction segs with
  | nil =>
    intro doc _
    exact Leads.done doc
  | cons seg rest ih =>
    intro doc h
    cases doc with
    | null => exact absurd rfl h
    | bool b => exact absurd rfl h
    | num q => exact absurd rfl h
    | str s => exact absurd rfl h
    | obj kvs =>
      by_cases hd : isDigitSegment seg
      · exact absurd (by simp [resolveSegs, hd]) h
      · cases hk : lookupKey kvs seg with
        | none =>
          exact absurd (by simp [resolveSegs, hd, hk]) h
        | some v =>
          have hres : resolveSegs (seg :: rest) (Json.obj kvs) = resolveSegs rest v := by
            simp [resolveSegs, hd, hk]
          rw [hres] at h ⊢
          exact Leads.key kvs seg rest v _ (by simpa using hd) hk (ih v h)
    | arr xs =>
      by_cases hd : isDigitSegment seg
      · cases hk : xs[segIndex seg]? with
        | none =>
          exact absurd (by simp [resolveSegs, hd, hk]) h
        | some v =>
          have hres : resolveSegs (seg :: rest) (Json.arr xs) = resolveSegs rest v := by
            simp [resolveSegs, hd, hk]
          rw [hres] at h ⊢
          exact Leads.index xs seg rest v _ hd hk (ih v h)
      · exact absurd (by simp [resolveSegs, hd]) h

/-- The document of the specification's resolver example: a mapping with a
Relay mapping holding a State sequence of four numbers. -/
def relayDoc : Json :=
  Json.obj [("Relay", Json.obj [("State",
    Json.arr [Json.num 1, Json.num 0, Json.num 1, Json.num 0])])]

/-- C1: the path resolver is total; over a document containing every
segment of the path it returns the stored terminal value unmodified, over
a document missing any segment it returns the absent marker; the
specification's Relay.State examples evaluate as stated. -/
theorem C1_get_nested_value_resolution (doc : Json) (segs : List String) :
    ((∀ v : Json, Leads doc segs v → resolveSegs segs doc = v)
      ∧ ((¬ ∃ v : Json, Leads doc segs v) → resolveSegs segs doc = Json.null))
    ∧ get_nested_value relayDoc "Relay.State.1" = Json.num 0
    ∧ get_nested_value relayDoc "Relay.State.5" = Json.null := by
  refine ⟨⟨fun v h => leads_resolve h, fun hn => ?_⟩, rfl, rfl⟩
  by_contra h
  exact hn ⟨resolveSegs segs doc, resolve_leads segs doc h⟩

/-- Numeric value of a nonempty all-digit character list, absent otherwise. -/
def digitsToNat (l : List Char) : Option ℕ :=
  if allDigits l then some (digitsVal l) else none

/-- Modelled from the spec: integer coercion of a string, the embedding of
a Python int conversion applied to text (an optional leading minus sign
followed by decimal digits; anything else is uncoercible). -/
def pyStrToInt (s : String) : Option ℤ :=
  match s.data with
  | '-' :: rest => (digitsToNat rest).map (fun n => -(n : ℤ))
  | l => (digitsToNat l).map (fun n => (n : ℤ))

/-- Integer part of a rational, truncating toward zero, the embedding of a
Python int conversion applied to a number. -/
def ratTrunc (q : ℚ) : ℤ :=
  Int.tdiv q.num q.den

/-- Modelled from the spec: integer coercion of an arbitrary telemetry
value — numbers truncate toward zero, strings parse as decimal integers,
booleans coerce to one and zero; null, sequences and mappings are
uncoercible. -/
def pyToInt (v : Json) : Option ℤ :=
  match v with
  | Json.num q => some (ratTrunc q)
  | Json.str s => pyStrToInt s
  | Json.bool b => some (if b then 1 else 0)
  | _ => none

/-- Modelled from the spec: strict two-valued bit decode
(helpers.bit_to_bool is not among the repository's staged files; only its
tests are). The string one or integer one decode to true, the string zero
or integer zero decode to false, anything else is ambiguous and decodes
to none, never a default false. -/
def bit_to_bool (v : Json) : Option Bool :=
  match v with
  | Json.num q => if q = 1 then some true else if q = 0 then some false else none
  | Json.str s => if s = "1" then some true else if s = "0" then some false else none
  | _ => none

/-- Modelled from the spec: lenient always-decided boolean decode
(helpers.int_to_bool is not among the repository's staged files; only its
tests are). Any value coercible to an integer strictly greater than zero
is true; zero, negative, null and uncoercible values are false. -/
def int_to_bool (v : Json) : Bool :=
  match pyToInt v with
  | some n => decide (0 < n)
  | none => false

/-- Modelled from the spec: parse the controller's runtime duration format
of days, a T separator, then colon-separated hours, minutes and seconds,
into fractional hours (helpers.parse_runtime_duration is not among the
repository's staged files; only its tests are). Any structural mismatch —
missing input, missing separator, wrong part count, non-numeric part —
yields none. -/
def parse_runtime_duration (text : Option String) : Option ℚ :=
  match text with
  | none => none
  | some s =>
    match splitChar 'T' s with
    | [d, time] =>
      match splitChar ':' time with
      | [h, m, sec] =>
        match pyStrToInt d, pyStrToInt h, pyStrToInt m, pyStrToInt sec with
        | some dd, some hh, some mm, some ss =>
          some ((dd : ℚ) * 24 + (hh : ℚ) + (mm : ℚ) / 60 + (ss : ℚ) / 3600)
        | _, _, _, _ => none
      | _ => none
    | _ => none

/-- Any successful duration parse carries the fractional-hours formula. -/
theorem parse_runtime_duration_shape (s : String) (q : ℚ)
    (h : parse_runtime_duration (some s) = some q) :
    ∃ dd hh mm ss : ℤ,
      q = (dd : ℚ) * 24 + (hh : ℚ) + (mm : ℚ) / 60 + (ss : ℚ) / 3600 := by
  simp only [parse_runtime_duration] at h
  split at h
  · split at h
    · split at h
      · exact ⟨_, _, _, _, (Option.some.inj h).symm⟩
      · exact absurd h (by simp)
    · exact absurd h (by simp)
  · exact absurd h (by simp)

/-- C7: bit decode is strict and two-valued — true exactly for the string
one or the integer one, false exactly for the string zero or the integer
zero, none for everything else. -/
theorem C7_bit_to_bool_strict (v : Json) :
    ((bit_to_bool v = some true ↔ v = Json.num 1 ∨ v = Json.str "1")
      ∧ (bit_to_bool v = some false ↔ v = Json.num 0 ∨ v = Json.str "0")
      ∧ (bit_to_bool v = none ↔
          v ≠ Json.num 1 ∧ v ≠ Json.str "1" ∧ v ≠ Json.num 0 ∧ v ≠ Json.str "0"))
    ∧ bit_to_bool (Json.num 2) = none
    ∧ bit_to_bool (Json.str "2") = none
    ∧ bit_to_bool (Json.str "yes") = none := by
  refine ⟨?_, by decide, by decide, by decide⟩
  cases v with
  | num q =>
    by_cases h1 : q = 1
    · subst h1; simp [bit_to_bool]
    · by_cases h0 : q = 0
      · subst h0; simp [bit_to_bool]
      · simp [bit_to_bool, h1, h0]
  | str s =>
    by_cases h1 : s = "1"
    · subst h1; simp [bit_to_bool]
    · by_cases h0 : s = "0"
      · subst h0; simp [bit_to_bool]
      · simp [bit_to_bool, h1, h0]
  | null => simp [bit_to_bool]
  | bool b => simp [bit_to_bool]
  | arr xs => simp [bit_to_bool]
  | obj kvs => simp [bit_to_bool]

/-- C8: the lenient decode is total and always decided — true exactly when
the value coerces to an integer strictly greater than zero, false for
zero, negatives, null and uncoercible values. -/
theorem C8_int_to_bool_decided (v : Json) :
    ((int_to_bool v = true ↔ ∃ n : ℤ, pyToInt v = some n ∧ 0 < n)
      ∧ (int_to_bool v = false ↔ ¬ ∃ n : ℤ, pyToInt v = some n ∧ 0 < n))
    ∧ int_to_bool Json.null = false
    ∧ int_to_bool (Json.num (-1)) = false
    ∧ int_to_bool (Json.num 0) = false
    ∧ int_to_bool (Json.str "invalid") = false
    ∧ int_to_bool (Json.str "0") = false
    ∧ int_to_bool (Json.num 5) = true
    ∧ int_to_bool (Json.str "5") = true := by
  refine ⟨?_, by decide, by decide, by decide, by decide, by decide, by decide, by decide⟩
  have hiff : int_to_bool v = true ↔ ∃ n : ℤ, pyToInt v = some n ∧ 0 < n := by
    unfold int_to_bool
    cases hp : pyToInt v with
    | none => simp [hp]
    | some n => simp [hp]
  refine ⟨hiff, ?_⟩
  rw [← hiff]
  cases h : int_to_bool v <;> simp [h]

/-- C9: the runtime duration parser returns the fractional-hours value
days times twenty-four plus hours plus minutes over sixty plus seconds
over thirty-six hundred for well-formed input, and none — never an error —
for missing input, the empty string, a missing separator or non-numeric
parts. -/
theorem C9_parse_runtime_duration_hours (s : String) :
    ((parse_runtime_duration (some s)).isSome →
      ∃ dd hh mm ss : ℤ, parse_runtime_duration (some s) =
        some ((dd : ℚ) * 24 + (hh : ℚ) + (mm : ℚ) / 60 + (ss : ℚ) / 3600))
    ∧ parse_runtime_duration none = none
    ∧ parse_runtime_duration (some "") = none
    ∧ parse_runtime_duration (some "invalid") = none
    ∧ parse_runtime_duration (some "123:04:30:00") = none
    ∧ parse_runtime_duration (some "10Tinvalid") = none
    ∧ parse_runtime_duration (some "123T04:30:00") = some (5913 / 2 : ℚ)
    ∧ (5913 / 2 : ℚ) = 123 * 24 + 4 + 30 / 60 + 0 / 3600
    ∧ parse_runtime_duration (some "10T00:00:00") = some 240 := by
  have h123 : parse_runtime_duration (some "123T04:30:00") = some (5913 / 2 : ℚ) := by
    have hT : splitChar 'T' "123T04:30:00" = ["123", "04:30:00"] := by decide
    have hC : splitChar ':' "04:30:00" = ["04", "30", "00"] := by decide
    have e1 : pyStrToInt "123" = some 123 := by decide
    have e2 : pyStrToInt "04" = some 4 := by decide
    have e3 : pyStrToInt "30" = some 30 := by decide
    have e4 : pyStrToInt "00" = some 0 := by decide
    simp only [parse_runtime_duration, hT, hC, e1, e2, e3, e4]
    norm_num
  have h240 : parse_runtime_duration (some "10T00:00:00") = some 240 := by
    have hT : splitChar 'T' "10T00:00:00" = ["10", "00:00:00"] := by decide
    have hC : splitChar ':' "00:00:00" = ["00", "00", "00"] := by decide
    have e1 : pyStrToInt "10" = some 10 := by decide
    have e4 : pyStrToInt "00" = some 0 := by decide
    simp only [parse_runtime_duration, hT, hC, e1, e4]
    norm_num
  refine ⟨?_, rfl, by decide, by decide, by decide, by decide, h123, by norm_num, h240⟩
  intro h
  obtain ⟨q, hq⟩ := Option.isSome_iff_exists.mp h
  obtain ⟨dd, hh, mm, ss, rfl⟩ := parse_runtime_duration_shape s q hq
  exact ⟨dd, hh, mm, ss, hq⟩

/-- Decimal digits of a proper fraction given by numerator and
denominator, produced long-division style; the fuel bounds the digit
count the way a Python float's shortest representation is bounded. -/
def fracDigitsND : ℕ → ℕ → ℕ → String
  | 0, _, _ => ""
  | _ + 1, 0, _ => ""
  | fuel + 1, n, d => toString ((10 * n) / d) ++ fracDigitsND fuel ((10 * n) % d) d

/-- Modelled from the spec: the natural decimal rendering of a number, as
a Python float prints — sign, integer part, a decimal point, then the
fraction digits (a whole number still prints one trailing zero digit). -/
def floatToStr (q : ℚ) : String :=
  (if q.num < 0 then "-" else "")
    ++ toString (q.num.natAbs / q.den) ++ "."
    ++ (if q.num.natAbs % q.den = 0 then "0" else fracDigitsND 20 (q.num.natAbs % q.den) q.den)

/-- Substitute the rendered value for every value placeholder of the
template's character list. -/
def substituteValue : List Char → String → List Char
  | [], _ => []
  | '\x7b' :: 'v' :: 'a' :: 'l' :: 'u' :: 'e' :: '\x7d' :: rest, r =>
    r.data ++ substituteValue rest r
  | c :: rest, r => c :: substituteValue rest r

/-- Modelled from the spec: when a template is configured the rendered
value is substituted into it, otherwise the rendered value is the payload
verbatim. -/
def applyTemplate (template : Option String) (rendered : String) : String :=
  match template with
  | some t => ⟨substituteValue t.data rendered⟩
  | none => rendered

/-- Modelled from the spec: the outbound command formatter (the number
platform module is not among the repository's staged files; only its
tests are). A whole-number step size renders the raw value as an integer
string truncated toward its integer part; any other step size renders the
natural float string; then the optional template is applied. -/
def format_command_value (raw_value step_size : ℚ) (template : Option String) : String :=
  applyTemplate template
    (if step_size.den = 1 then toString (ratTrunc raw_value) else floatToStr raw_value)

/-- C4: with an integer-valued step (a rational of denominator one, which
is also how a whole float step reads) the formatter renders the truncated
integer string, with any other step the natural float string; a template
receives the rendered value, no template passes it verbatim; the
specification's examples — step one with seven hundred fifty renders
"750", step one tenth with twenty-nine quarters renders "7.25", the
percent template with sixty renders "60 %" — evaluate as stated. -/
theorem C4_format_command_value (raw step : ℚ) (t : Option String) :
    (step.den = 1 → format_command_value raw step t = applyTemplate t (toString (ratTrunc raw)))
    ∧ (step.den ≠ 1 → format_command_value raw step t = applyTemplate t (floatToStr raw))
    ∧ (∀ r : String, applyTemplate none r = r)
    ∧ format_command_value 750 1 none = "750"
    ∧ format_command_value (mkRat 29 4) (mkRat 1 10) none = "7.25"
    ∧ format_command_value 60 1 (some "{value} %") = "60 %"
    ∧ (∀ r : String, applyTemplate (some "{value} %") r = r ++ " %")
    ∧ format_command_value (mkRat 15 2) 1 none = "7" := by
  refine ⟨?_, ?_, fun r => rfl, by decide, by decide, by decide, ?_, by decide⟩
  · intro h
    simp [format_command_value, h]
  · intro h
    simp [format_command_value, h]
  · intro r
    show String.mk (substituteValue ("{value} %").data r) = r ++ " %"
    cases r with
    | mk data =>
      show String.mk (data ++ [' ', '%']) = String.mk (data ++ [' ', '%'])
      rfl

/-- An inbound transport payload, delivered as text or as raw bytes; a
byte payload is carried here by the text its bytes decode to. -/
inductive MqttPayload where
  | text (s : String) : MqttPayload
  | binary (s : String) : MqttPayload

/-- Normalize a payload to text before comparison, the byte form decoding
to its text. -/
def payloadText : MqttPayload → String
  | MqttPayload.text s => s
  | MqttPayload.binary s => s

/-- Per-entity mutable runtime state: the availability flag (defaults to
unavailable), the last resolved value (null until the first successful
resolution), the count of host-platform state notifications written, and
the active subscription handles. -/
structure EntityState where
  available : Bool
  value : Json
  stateWrites : ℕ
  unsubscribeCallbacks : List ℕ

/-- The state of a freshly constructed entity. -/
def initialEntityState : EntityState :=
  { available := false, value := Json.null, stateWrites := 0, unsubscribeCallbacks := [] }

/-- Modelled from the spec: the liveness message handler (the entity base
module is not among the repository's staged files; only its tests are).
The payload is normalized to text; availability becomes true exactly on an
exact match of the Online text and false on anything else, and a host
state notification is written on every message, changed or not. -/
def availability_received (st : EntityState) (payload : MqttPayload) : EntityState :=
  { st with
    available := payloadText payload == "Online"
    stateWrites := st.stateWrites + 1 }

/-- Static configuration of one readable sensor entity: its stable key,
its field path into the telemetry document, and an optional custom value
transform (null result meaning no value). -/
structure SensorDescription where
  key : String
  json_path : String
  value_fn : Option (Json → Json)

/-- The value a telemetry document yields for a sensor: resolve the field
path; an absent resolution stays absent, otherwise the custom transform
applies when present and the raw value passes through when not. -/
def extractedValue (desc : SensorDescription) (doc : Json) : Json :=
  match get_nested_value doc desc.json_path with
  | Json.null => Json.null
  | raw =>
    match desc.value_fn with
    | some f => f raw
    | none => raw

/-- Modelled from the spec: the sensor telemetry message handler (the
sensor platform module is not among the repository's staged files; only
its tests are). The argument is the JSON parse of the inbound payload: a
malformed payload parses to none and is dropped silently; an absent
resolution or a transform yielding null leaves the cached value unchanged
and writes no notification; any other value is cached and notified. -/
def handle_sensor_message (desc : SensorDescription) (st : EntityState)
    (parsed : Option Json) : EntityState :=
  match parsed with
  | none => st
  | some doc =>
    match extractedValue desc doc with
    | Json.null => st
    | v => { st with value := v, stateWrites := st.stateWrites + 1 }

/-- Static configuration of one binary sensor entity: its stable key, its
field path, and the inversion flag. -/
structure BinarySensorDescription where
  key : String
  json_path : String
  invert : Bool

/-- Modelled from the spec: the binary sensor telemetry message handler
(the binary sensor platform module is not among the repository's staged
files; only its tests are). The resolved field decodes through the strict
bit decode; an ambiguous or absent decode leaves the cached value
unchanged and writes no notification; a decoded boolean is negated when
the inversion flag is set, then cached and notified. -/
def handle_binary_sensor_message (desc : BinarySensorDescription) (st : EntityState)
    (parsed : Option Json) : EntityState :=
  match parsed with
  | none => st
  | some doc =>
    match get_nested_value doc desc.json_path with
    | Json.null => st
    | raw =>
      match bit_to_bool raw with
      | none => st
      | some b =>
        { st with
          value := Json.bool (if desc.invert then !b else b)
          stateWrites := st.stateWrites + 1 }

/-- Modelled from the spec: entity detach (the entity base module is not
among the repository's staged files; only its tests are). Every stored
unsubscribe handle is invoked, in order, exactly once — the second
component returns that call trace — and the subscription list is cleared. -/
def async_will_remove_from_hass (st : EntityState) : EntityState × List ℕ :=
  ({ st with unsubscribeCallbacks := [] },
   st.unsubscribeCallbacks.foldl (fun called cb => called ++ [cb]) [])

/-- Folding append-of-singleton over a list snocs every element in order. -/
theorem foldl_snoc_eq (l : List ℕ) :
    ∀ acc : List ℕ, l.foldl (fun called cb => called ++ [cb]) acc = acc ++ l := by
  induction l with
  | nil => intro acc; simp
  | cons c rest ih =>
    intro acc
    simp only [List.foldl_cons, ih (acc ++ [c]), List.append_assoc, List.singleton_append]

/-- A null extracted value leaves the sensor state untouched. -/
theorem handle_sensor_message_null (desc : SensorDescription) (st : EntityState)
    (doc : Json) (h : extractedValue desc doc = Json.null) :
    handle_sensor_message desc st (some doc) = st := by
  simp only [handle_sensor_message, h]

/-- A non-null extracted value is cached and notified. -/
theorem handle_sensor_message_value (desc : SensorDescription) (st : EntityState)
    (doc : Json) (v : Json) (h : extractedValue desc doc = v) (hv : v ≠ Json.null) :
    handle_sensor_message desc st (some doc)
      = { st with value := v, stateWrites := st.stateWrites + 1 } := by
  cases v with
  | null => exact absurd rfl hv
  | bool b => simp only [handle_sensor_message, h]
  | num q => simp only [handle_sensor_message, h]
  | str s => simp only [handle_sensor_message, h]
  | arr xs => simp only [handle_sensor_message, h]
  | obj kvs => simp only [handle_sensor_message, h]

/-- An absent resolution extracts no value. -/
theorem extractedValue_absent (desc : SensorDescription) (doc : Json)
    (h : get_nested_value doc desc.json_path = Json.null) :
    extractedValue desc doc = Json.null := by
  simp only [extractedValue, h]

/-- With a configured transform and a present resolution, the extracted
value is the transform of the resolved value. -/
theorem extractedValue_transform (desc : SensorDescription) (doc : Json)
    (f : Json → Json) (hf : desc.value_fn = some f)
    (h : get_nested_value doc desc.json_path ≠ Json.null) :
    extractedValue desc doc = f (get_nested_value doc desc.json_path) := by
  cases hr : get_nested_value doc desc.json_path with
  | null => exact absurd hr h
  | bool b => simp only [extractedValue, hr, hf]
  | num q => simp only [extractedValue, hr, hf]
  | str s => simp only [extractedValue, hr, hf]
  | arr xs => simp only [extractedValue, hr, hf]
  | obj kvs => simp only [extractedValue, hr, hf]

/-- With no transform the extracted value is the resolved value itself. -/
theorem extractedValue_id (desc : SensorDescription) (doc : Json)
    (hf : desc.value_fn = none) :
    extractedValue desc doc = get_nested_value doc desc.json_path := by
  cases hr : get_nested_value doc desc.json_path with
  | null => simp only [extractedValue, hr]
  | bool b => simp only [extractedValue, hr, hf]
  | num q => simp only [extractedValue, hr, hf]
  | str s => simp only [extractedValue, hr, hf]
  | arr xs => simp only [extractedValue, hr, hf]
  | obj kvs => simp only [extractedValue, hr, hf]

/-- C2: on every liveness message the availability flag becomes true
exactly when the normalized payload is the Online text — byte payloads
included — and false for any other payload, and a host state notification
is written every time, even when the value did not change. -/
theorem C2_availability_online_notify (st : EntityState) (p : MqttPayload) :
    (((availability_received st p).available = true ↔ payloadText p = "Online")
      ∧ ((availability_received st p).available = false ↔ payloadText p ≠ "Online"))
    ∧ (availability_received st p).stateWrites = st.stateWrites + 1
    ∧ (availability_received st (MqttPayload.binary "Online")).available = true
    ∧ (availability_received st (MqttPayload.text "Offline")).available = false
    ∧ (availability_received st (MqttPayload.text "UnknownStatus")).available = false := by
  refine ⟨⟨?_, ?_⟩, rfl, rfl, rfl, rfl⟩
  · show (payloadText p == "Online") = true ↔ payloadText p = "Online"
    simp
  · show (payloadText p == "Online") = false ↔ payloadText p ≠ "Online"
    simp

/-- The sensor description of the zero-value examples: the temperature
field path, no custom transform. -/
def tempDesc : SensorDescription :=
  { key := "test_sensor", json_path := "NeoPool.Temperature", value_fn := none }

/-- A document storing the number zero at the temperature path. -/
def zeroTempDoc : Json :=
  Json.obj [("NeoPool", Json.obj [("Temperature", Json.num 0)])]

/-- A document storing boolean false at the temperature path. -/
def falseTempDoc : Json :=
  Json.obj [("NeoPool", Json.obj [("Temperature", Json.bool false)])]

/-- C3: a malformed payload (no JSON parse), an absent resolution and a
transform yielding null all leave the cached value and notification count
unchanged; with no transform any non-null resolved value — in particular
the number zero and boolean false, both valid zeros — is cached and
notified. -/
theorem C3_telemetry_no_update_vs_zero (desc : SensorDescription) (st : EntityState) :
    (handle_sensor_message desc st none = st)
    ∧ (∀ doc : Json, get_nested_value doc desc.json_path = Json.null →
        handle_sensor_message desc st (some doc) = st)
    ∧ (∀ doc : Json, ∀ f : Json → Json, desc.value_fn = some f →
        f (get_nested_value doc desc.json_path) = Json.null →
        handle_sensor_message desc st (some doc) = st)
    ∧ (∀ doc v : Json, desc.value_fn = none →
        get_nested_value doc desc.json_path = v → v ≠ Json.null →
        handle_sensor_message desc st (some doc)
          = { st with value := v, stateWrites := st.stateWrites + 1 })
    ∧ (handle_sensor_message tempDesc st (some zeroTempDoc)
        = { st with value := Json.num 0, stateWrites := st.stateWrites + 1 })
    ∧ (handle_sensor_message tempDesc st (some falseTempDoc)
        = { st with value := Json.bool false, stateWrites := st.stateWrites + 1 }) := by
  refine ⟨rfl, ?_, ?_, ?_, rfl, rfl⟩
  · intro doc h
    exact handle_sensor_message_null desc st doc (extractedValue_absent desc doc h)
  · intro doc f hf hnull
    by_cases hr : get_nested_value doc desc.json_path = Json.null
    · exact handle_sensor_message_null desc st doc (extractedValue_absent desc doc hr)
    · have hev := extractedValue_transform desc doc f hf hr
      rw [hnull] at hev
      exact handle_sensor_message_null desc st doc hev
  · intro doc v hf hr hv
    refine handle_sensor_message_value desc st doc v ?_ hv
    rw [extractedValue_id desc doc hf, hr]

/-- The inverted binary description of the inversion examples. -/
def invDesc : BinarySensorDescription :=
  { key := "test_binary", json_path := "NeoPool.Test.State", invert := true }

/-- A document storing the given raw value at the inverted description's
state path. -/
def stateDoc (raw : Json) : Json :=
  Json.obj [("NeoPool", Json.obj [("Test", Json.obj [("State", raw)])])]

/-- C5: with the inversion flag set, a field decoding to false — raw zero
as number or string — reports true and one decoding to true reports
false: the negation applies after the bit decode, before caching and
notification. -/
theorem C5_invert_negates_decode (st : EntityState) :
    ((handle_binary_sensor_message invDesc st (some (stateDoc (Json.num 0)))).value
        = Json.bool true)
    ∧ ((handle_binary_sensor_message invDesc st (some (stateDoc (Json.str "0")))).value
        = Json.bool true)
    ∧ ((handle_binary_sensor_message invDesc st (some (stateDoc (Json.num 1)))).value
        = Json.bool false)
    ∧ ((handle_binary_sensor_message invDesc st (some (stateDoc (Json.str "1")))).value
        = Json.bool false)
    ∧ ((handle_binary_sensor_message invDesc st (some (stateDoc (Json.num 0)))).stateWrites
        = st.stateWrites + 1)
    ∧ (∀ desc : BinarySensorDescription, ∀ doc : Json, ∀ b : Bool,
        desc.invert = true →
        bit_to_bool (get_nested_value doc desc.json_path) = some b →
        handle_binary_sensor_message desc st (some doc)
          = { st with value := Json.bool (!b), stateWrites := st.stateWrites + 1 }) := by
  refine ⟨rfl, rfl, rfl, rfl, rfl, ?_⟩
  intro desc doc b hinv hb
  cases hr : get_nested_value doc desc.json_path with
  | null =>
    rw [hr] at hb
    simp [bit_to_bool] at hb
  | bool b2 =>
    rw [hr] at hb
    simp [bit_to_bool] at hb
  | arr xs =>
    rw [hr] at hb
    simp [bit_to_bool] at hb
  | obj kvs =>
    rw [hr] at hb
    simp [bit_to_bool] at hb
  | num q =>
    rw [hr] at hb
    simp only [handle_binary_sensor_message, hr, hb, hinv, ite_true]
  | str s =>
    rw [hr] at hb
    simp only [handle_binary_sensor_message, hr, hb, hinv, ite_true]

/-- C6: detach invokes every stored unsubscribe handle exactly once, in
order, and leaves the subscription list empty; a second detach, or a
detach with no active subscriptions, performs no further unsubscribe
calls and still leaves the list empty. -/
theorem C6_detach_idempotent (st : EntityState) :
    ((async_will_remove_from_hass st).2 = st.unsubscribeCallbacks)
    ∧ ((async_will_remove_from_hass st).1.unsubscribeCallbacks = [])
    ∧ (async_will_remove_from_hass (async_will_remove_from_hass st).1
        = ((async_will_remove_from_hass st).1, []))
    ∧ (st.unsubscribeCallbacks = [] → async_will_remove_from_hass st = (st, [])) := by
  refine ⟨?_, rfl, rfl, ?_⟩
  · show st.unsubscribeCallbacks.foldl (fun called cb => called ++ [cb]) []
        = st.unsubscribeCallbacks
    simpa using foldl_snoc_eq st.unsubscribeCallbacks []
  · intro h
    cases st with
    | mk a v w u =>
      subst h
      rfl

/-- The unique-id prefix of the YAML package era. -/
def yamlUniqueIdPrefix : String := "neopool_mqtt_"

/-- One entity-registry entry as the migration pass sees it: its entity
id, its unique id, and the config entry it is associated with, if any. -/
structure RegistryEntry where
  entity_id : String
  unique_id : String
  config_entry_id : Option String

/-- Whether a unique id starts with the YAML prefix, the embedding of the
source's startswith test. -/
def hasYamlPrefix (uid : String) : Bool :=
  yamlUniqueIdPrefix.data.isPrefixOf uid.data

/-- The entity key of an old unique id: the id with its leading YAML
prefix removed. The source removes the first occurrence of the prefix,
which under its startswith guard is exactly the leading prefix. -/
def stripYamlPrefix (uid : String) : String :=
  ⟨uid.data.drop yamlUniqueIdPrefix.data.length⟩

/-- Migration of one registry entry, embedded from
async_migrate_yaml_entities of the integration's setup module: an entry
whose unique id bears the YAML prefix and which is associated with no
config entry gets the unique id rebuilt as prefix, nodeid, underscore,
then the old key, and is assigned to the current config entry; every
other entry is left unchanged. -/
def migrateEntry (nodeid entry_id : String) (e : RegistryEntry) : RegistryEntry :=
  if hasYamlPrefix e.unique_id && e.config_entry_id.isNone then
    { e with
      unique_id := yamlUniqueIdPrefix ++ nodeid ++ "_" ++ stripYamlPrefix e.unique_id
      config_entry_id := some entry_id }
  else e

/-- The migration pass over the whole registry, embedded from
async_migrate_yaml_entities: each entry is migrated independently. -/
def async_migrate_yaml_entities (nodeid entry_id : String)
    (registry : List RegistryEntry) : List RegistryEntry :=
  registry.map (migrateEntry nodeid entry_id)

/-- C10: the migration pass transforms exactly the entries whose unique
id starts with the YAML prefix and which have no config-entry
association — their unique id becomes prefix, nodeid, underscore, then
the old key (the old unique id minus its first prefix), and they are
assigned to the current config entry — while entries with a different
prefix or an existing association are left unchanged, so a previously
migrated entry is never double-prefixed. -/
theorem C10_migrate_yaml_unique_ids (nodeid entry_id key : String) (e : RegistryEntry) :
    (e.unique_id = yamlUniqueIdPrefix ++ key → e.config_entry_id = none →
      migrateEntry nodeid entry_id e
        = { e with
            unique_id := yamlUniqueIdPrefix ++ nodeid ++ "_" ++ key
            config_entry_id := some entry_id })
    ∧ (hasYamlPrefix e.unique_id = true → e.config_entry_id = none →
        ∃ k : String, e.unique_id = yamlUniqueIdPrefix ++ k ∧
          migrateEntry nodeid entry_id e
            = { e with
                unique_id := yamlUniqueIdPrefix ++ nodeid ++ "_" ++ k
                config_entry_id := some entry_id })
    ∧ (hasYamlPrefix e.unique_id = false → migrateEntry nodeid entry_id e = e)
    ∧ (∀ cid : String, e.config_entry_id = some cid → migrateEntry nodeid entry_id e = e)
    ∧ (∀ registry : List RegistryEntry, ∀ i : ℕ,
        (async_migrate_yaml_entities nodeid entry_id registry)[i]?
          = (registry[i]?).map (migrateEntry nodeid entry_id)) := by
  have main : ∀ k : String, e.unique_id = yamlUniqueIdPrefix ++ k →
      e.config_entry_id = none →
      migrateEntry nodeid entry_id e
        = { e with
            unique_id := yamlUniqueIdPrefix ++ nodeid ++ "_" ++ k
            config_entry_id := some entry_id } := by
    intro k hu hc
    have hp : hasYamlPrefix e.unique_id = true := by
      rw [hu]
      unfold hasYamlPrefix
      rw [String.data_append, List.isPrefixOf_iff_prefix]
      exact List.prefix_append _ _
    have hs : stripYamlPrefix e.unique_id = k := by
      rw [hu]
      unfold stripYamlPrefix
      rw [String.data_append, List.drop_left]
    simp [migrateEntry, hp, hc, hs]
  refine ⟨main key, ?_, ?_, ?_, ?_⟩
  · intro hp hc
    obtain ⟨t, ht⟩ := List.isPrefixOf_iff_prefix.mp hp
    have hu : e.unique_id = yamlUniqueIdPrefix ++ (⟨t⟩ : String) :=
      (congrArg String.mk ht).symm
    exact ⟨⟨t⟩, hu, main ⟨t⟩ hu hc⟩
  · intro h
    simp [migrateEntry, h]
  · intro cid h
    simp [migrateEntry, h]
  · intro registry i
    simp [async_migrate_yaml_entities]
